import Mathlib

/-!
Shallow embedding of `src/main.py` (gmail-telegram-notifications).

The program is a sequential mailbox-triage pipeline: load credentials,
connect to an IMAP mailbox, delete mail from blocklisted senders, notify
about unseen mail from watchlisted senders via a Telegram HTTP endpoint,
download attachments from a third sender list, and log out.

Modelling conventions:
* The remote mailbox is a `List Message`; IMAP `search`/`fetch`/`store`/
  `expunge` become pure functions on it.  `FROM "x"` matching is treated
  as an opaque equality predicate on the message's From value (as the
  spec directs); the From header and the searched address are one field.
* External effects that the claims talk about (connect, search, fetch,
  store, expunge, logout, directory creation, file writes, HTTP posts,
  prints, error/warning logs) are recorded in an event trace.
  `logging.info` calls and the exception text interpolated into some log
  messages are not modelled.
* Python exceptions become `Except PyError`; a stage function returns its
  trace together with either its result or the propagated error.
* `email.header.decode_header` results are modelled as fragment lists;
  whether a bytes fragment decodes is an oracle carried by the fragment
  (`none` models a raised `UnicodeDecodeError`/`LookupError`).
  Whether a `requests.post` succeeds, whether the IMAP login succeeds and
  whether an attachment's `open`/`write` succeeds are likewise oracles
  carried by the input (`HttpOutcome`, `Env.connectOk`,
  `MimePart.writeOk`).  Attachment payload bytes are not modelled: no
  claim mentions file contents.
-/

/-- Errors a run can raise.  `ioError`/`parseError`/`keyError` arise while
reading configuration files, `connError` from the IMAP connection,
`typeError`/`indexError`/`decodeError` from header decoding,
`fetchError` from a stale fetch. -/
inductive PyError where
  | ioError
  | parseError
  | keyError (k : String)
  | typeError
  | indexError
  | decodeError
  | fetchError
  | connError
deriving DecidableEq

/-- One fragment of a `decode_header` result: either an already-decoded
`str`, or a `bytes` fragment whose `.decode(encoding or "utf-8")` outcome
is the oracle `decoded` (`none` models a raised decoding error). -/
inductive Fragment where
  | str (s : String)
  | bytes (decoded : Option String)
deriving DecidableEq

/-- Decode one fragment, as lines 97-99 / 172-174 / 188-190 of
`src/main.py` do: a `str` fragment is used as is, a `bytes` fragment is
decoded (which may raise). -/
def decodeFragment : Fragment → Except PyError String
  | Fragment.str s => Except.ok s
  | Fragment.bytes (some s) => Except.ok s
  | Fragment.bytes none => Except.error PyError.decodeError

/-- Take `decode_header(h)[0]` and decode it; an empty fragment list
models an out-of-range `[0]` access. -/
def decodeHeaderFirst : List Fragment → Except PyError String
  | [] => Except.error PyError.indexError
  | f :: _ => decodeFragment f

/-- Decode the Subject header as both stages do:
`decode_header(msg["Subject"])[0]`.  `none` models an absent Subject
header, on which `decode_header(None)` raises a `TypeError`. -/
def decodeSubject : Option (List Fragment) → Except PyError String
  | none => Except.error PyError.typeError
  | some frags => decodeHeaderFirst frags

/-- One MIME part as seen by `msg.walk()` in `get_attachments`.
`filename` is `none` when `part.get_filename()` is falsy (absent or
empty), otherwise the `decode_header` fragments of the raw filename.
`writeOk` is the oracle for whether `open`/`write` of this part
succeeds. -/
structure MimePart where
  isMultipart : Bool
  hasContentDisposition : Bool
  filename : Option (List Fragment)
  writeOk : Bool
deriving DecidableEq

/-- One message in the selected mailbox.  `msgId` is the identifier the
IMAP search returns (an opaque string, per the spec's data model);
`fromAddr` is the From value, used both for `FROM` matching and as
`msg.get("From")`; `subject` is the `decode_header` view of the Subject
header (`none` = header absent); `parts` is the flattened `msg.walk()`
sequence. -/
structure Message where
  msgId : String
  fromAddr : String
  subject : Option (List Fragment)
  seen : Bool
  deleted : Bool
  parts : List MimePart
deriving DecidableEq

/-- Externally observable actions of a run, in order. -/
inductive Event where
  | connect (user : String)
  | search (criteria : String)
  | fetch (id : String)
  | store (id flag : String)
  | expunge
  | logout
  | makedirs (dir : String)
  | sendMessage (chatId text : String)
  | fileWrite (path : String)
  | printDelete (rows : List (String × Nat))
  | printNotify (rows : List (String × String))
  | printAttach (rows : List (String × String))
  | errorLog (msg : String)
  | warnLog (msg : String)
deriving DecidableEq

/-- Credentials loaded from `credentials.yaml`. -/
structure Credentials where
  user : String
  password : String
  telegram_token : String
  telegram_chat_id : String
deriving DecidableEq

/-- The credentials file as the loader can encounter it: unopenable,
unparsable, or a parsed key-value mapping. -/
inductive CredFile where
  | missing
  | malformed
  | parsed (entries : List (String × String))
deriving DecidableEq

/-- A sender-list JSON file: unopenable, unparsable, lacking the
`"emails"` key, or well formed. -/
inductive JsonFile where
  | missing
  | malformed
  | noEmailsKey
  | ok (emails : List String)
deriving DecidableEq

/-- Outcome of the single `requests.post` in `send_to_telegram`:
the request raised a `RequestException`, or a response arrived with the
given status code. -/
inductive HttpOutcome where
  | networkFailure
  | response (status : Nat)
deriving DecidableEq

/-- Look a key up in a parsed YAML mapping; a missing key raises
`KeyError` as `credentials[...]` does. -/
def lookupKey (entries : List (String × String)) (k : String) : Except PyError String :=
  match entries.find? (fun kv => kv.1 == k) with
  | some kv => Except.ok kv.2
  | none => Except.error (PyError.keyError k)

/-- Embedding of `load_credentials` (src/main.py lines 24-36): open and
parse the YAML file, read the four keys; any failure is logged and
re-raised. -/
def load_credentials : CredFile → List Event × Except PyError Credentials
  | CredFile.missing =>
      ([Event.errorLog "Failed to load credentials"], Except.error PyError.ioError)
  | CredFile.malformed =>
      ([Event.errorLog "Failed to load credentials"], Except.error PyError.parseError)
  | CredFile.parsed entries =>
      match lookupKey entries "user" with
      | Except.error e => ([Event.errorLog "Failed to load credentials"], Except.error e)
      | Except.ok u =>
        match lookupKey entries "password" with
        | Except.error e => ([Event.errorLog "Failed to load credentials"], Except.error e)
        | Except.ok p =>
          match lookupKey entries "telegram_token" with
          | Except.error e => ([Event.errorLog "Failed to load credentials"], Except.error e)
          | Except.ok t =>
            match lookupKey entries "telegram_chat_id" with
            | Except.error e => ([Event.errorLog "Failed to load credentials"], Except.error e)
            | Except.ok c => ([], Except.ok (Credentials.mk u p t c))

/-- Embedding of `connect_to_gmail_imap` (lines 39-49): attempt the
IMAP-over-SSL connection, login and inbox select; on failure log and
re-raise.  `ok` is the connection/authentication oracle and `inbox` the
mailbox content the session sees. -/
def connect_to_gmail_imap (user _password : String) (ok : Bool) (inbox : List Message) :
    List Event × Except PyError (List Message) :=
  if ok then ([Event.connect user], Except.ok inbox)
  else ([Event.connect user, Event.errorLog "Connection failed"], Except.error PyError.connError)

/-- Read `data["emails"]` from a sender-list JSON file. -/
def loadEmails : JsonFile → Except PyError (List String)
  | JsonFile.missing => Except.error PyError.ioError
  | JsonFile.malformed => Except.error PyError.parseError
  | JsonFile.noEmailsKey => Except.error (PyError.keyError "emails")
  | JsonFile.ok emails => Except.ok emails

/-- IMAP `search`: ids of the messages satisfying the criteria
predicate, in mailbox order. -/
def searchIds (mb : List Message) (p : Message → Bool) : List String :=
  (mb.filter p).map (fun m => m.msgId)

/-- IMAP `fetch`: the message a given id denotes. -/
def fetchMsg (mb : List Message) (i : String) : Option Message :=
  mb.find? (fun m => m.msgId == i)

/-- Effect of `store(i, "+FLAGS", "\\Seen")` on one message. -/
def setSeenFn (i : String) (m : Message) : Message :=
  if m.msgId == i then { m with seen := true } else m

/-- Effect of `store(i, "+FLAGS", "\\Seen")` on the mailbox. -/
def setSeen (mb : List Message) (i : String) : List Message :=
  mb.map (setSeenFn i)

/-- Effect of `store(i, "+FLAGS", "\\Deleted")` on one message. -/
def setDeletedFn (i : String) (m : Message) : Message :=
  if m.msgId == i then { m with deleted := true } else m

/-- Effect of `store(i, "+FLAGS", "\\Deleted")` on the mailbox. -/
def setDeleted (mb : List Message) (i : String) : List Message :=
  mb.map (setDeletedFn i)

/-- IMAP `expunge`: permanently drop every message flagged deleted. -/
def expungeMb (mb : List Message) : List Message :=
  mb.filter (fun m => !m.deleted)

/-- Per-sender loop of `get_emails_to_delete` (lines 60-70): search by
sender, flag every match deleted, record `(sender, count)`. -/
def deleteLoop (mb : List Message) : List String → List Event × (List Message × List (String × Nat))
  | [] => ([], (mb, []))
  | s :: rest =>
      let ids := searchIds mb (fun m => m.fromAddr == s)
      let mb' := ids.foldl setDeleted mb
      let r := deleteLoop mb' rest
      (Event.search s!"FROM \"{s}\"" :: (ids.map (fun i => Event.store i "\\Deleted") ++ r.1),
       (r.2.1, (s, ids.length) :: r.2.2))

/-- Embedding of `get_emails_to_delete` (lines 52-77): read the
blocklist, flag and count matches per sender, expunge once at the end;
any failure is logged and re-raised. -/
def get_emails_to_delete (mb : List Message) (jf : JsonFile) :
    List Event × Except PyError (List Message × List (String × Nat)) :=
  match loadEmails jf with
  | Except.error e => ([Event.errorLog "Failed to delete emails"], Except.error e)
  | Except.ok senders =>
      let r := deleteLoop mb senders
      (r.1 ++ [Event.expunge], Except.ok (expungeMb r.2.1, r.2.2))

/-- Per-message loop of `get_emails_to_notify` (lines 92-106): fetch,
decode the first Subject fragment, read From, mark seen, record the
row.  A decode failure propagates (the stage has no inner handler). -/
def notifyMsgs (mb : List Message) : List String → List Event × Except PyError (List Message × List (String × String))
  | [] => ([], Except.ok (mb, []))
  | i :: rest =>
      match fetchMsg mb i with
      | none => ([Event.fetch i], Except.error PyError.fetchError)
      | some m =>
        match decodeSubject m.subject with
        | Except.error e => ([Event.fetch i], Except.error e)
        | Except.ok subj =>
          let r := notifyMsgs (setSeen mb i) rest
          (Event.fetch i :: Event.store i "\\Seen" :: r.1,
           Except.map (fun x => (x.1, (m.fromAddr, subj) :: x.2)) r.2)

/-- Per-sender loop of `get_emails_to_notify` (lines 88-106): search for
unseen mail from the sender, process every hit. -/
def notifySenders (mb : List Message) : List String → List Event × Except PyError (List Message × List (String × String))
  | [] => ([], Except.ok (mb, []))
  | s :: rest =>
      let ids := searchIds mb (fun m => m.fromAddr == s && !m.seen)
      let r := notifyMsgs mb ids
      match r.2 with
      | Except.error e => (Event.search s!"(FROM \"{s}\" UNSEEN)" :: r.1, Except.error e)
      | Except.ok x =>
        let r' := notifySenders x.1 rest
        (Event.search s!"(FROM \"{s}\" UNSEEN)" :: (r.1 ++ r'.1),
         Except.map (fun y => (y.1, x.2 ++ y.2)) r'.2)

/-- Python `str.ljust`: pad on the right with spaces to the given
width. -/
def pyLjust (s : String) (w : Nat) : String :=
  s ++ String.mk (List.replicate (w - s.length) ' ')

/-- Embedding of `get_emails_to_notify` (lines 80-114): read the
watchlist, collect one `(From, Subject)` row per unseen match, then pad
the columns (`.str.ljust(30)` / `.str.ljust(50)`); any failure is logged
and re-raised. -/
def get_emails_to_notify (mb : List Message) (jf : JsonFile) :
    List Event × Except PyError (List Message × List (String × String)) :=
  match loadEmails jf with
  | Except.error e => ([Event.errorLog "Failed to notify emails"], Except.error e)
  | Except.ok senders =>
      let r := notifySenders mb senders
      match r.2 with
      | Except.error e => (r.1 ++ [Event.errorLog "Failed to notify emails"], Except.error e)
      | Except.ok x =>
          (r.1, Except.ok (x.1, x.2.map (fun row => (pyLjust row.1 30, pyLjust row.2 50))))

/-- Embedding of `send_to_telegram` (lines 117-126): post the message;
a raised `RequestException` (network failure) or the `HTTPError` from
`raise_for_status` on a status ≥ 400 is caught and logged, so the
function always returns normally. -/
def send_to_telegram (_token chatId message : String) (o : HttpOutcome) :
    List Event × Except PyError Unit :=
  match o with
  | HttpOutcome.networkFailure =>
      ([Event.sendMessage chatId message, Event.errorLog "Failed to send message to Telegram"],
       Except.ok ())
  | HttpOutcome.response code =>
      if 400 ≤ code then
        ([Event.sendMessage chatId message, Event.errorLog "Failed to send message to Telegram"],
         Except.ok ())
      else ([Event.sendMessage chatId message], Except.ok ())

/-- Condition of line 183: the part carries a Content-Disposition header
or a (truthy) filename. -/
def isAttachCandidate (p : MimePart) : Bool :=
  p.hasContentDisposition || p.filename.isSome

/-- A leaf part treated as an attachment: not a multipart container and
an attachment candidate. -/
def isAttachPart (p : MimePart) : Bool :=
  !p.isMultipart && isAttachCandidate p

/-- Lines 184-192: decode the part's filename, or synthesize
`attachment_<msgId>` when it is absent. -/
def partFilename (msgId : String) (p : MimePart) : Except PyError String :=
  match p.filename with
  | some frags => decodeHeaderFirst frags
  | none => Except.ok ("attachment_" ++ msgId)

/-- Line 195: the saved filename `f"{msg_id.decode()}_{filename}"`. -/
def mkSavedName (msgId filename : String) : String :=
  msgId ++ "_" ++ filename

/-- Per-part loop of `get_attachments` (lines 179-210): skip multipart
containers and non-candidates, decode the filename (failure propagates,
it is outside the inner handler), then write; a write failure is caught,
logged, and skipped. -/
def attachParts (sender msgId dir : String) : List MimePart → List Event × Except PyError (List (String × String))
  | [] => ([], Except.ok [])
  | p :: rest =>
      if p.isMultipart then attachParts sender msgId dir rest
      else if isAttachCandidate p then
        match partFilename msgId p with
        | Except.error e => ([], Except.error e)
        | Except.ok name =>
          let uniq := mkSavedName msgId name
          let r := attachParts sender msgId dir rest
          if p.writeOk then
            (Event.fileWrite (dir ++ "/" ++ uniq) :: r.1,
             Except.map (fun recs => (sender, uniq) :: recs) r.2)
          else
            (Event.warnLog s!"Failed to save attachment {name}" :: r.1, r.2)
      else attachParts sender msgId dir rest

/-- Per-message loop of `get_attachments` (lines 164-210): fetch (a
failed fetch is logged and skipped), decode the Subject for logging
(failure propagates), then walk the parts. -/
def attachMsgs (sender dir : String) (mb : List Message) : List String → List Event × Except PyError (List (String × String))
  | [] => ([], Except.ok [])
  | i :: rest =>
      match fetchMsg mb i with
      | none =>
          let r := attachMsgs sender dir mb rest
          (Event.fetch i :: Event.warnLog s!"Failed to fetch email ID: {i}" :: r.1, r.2)
      | some m =>
        match decodeSubject m.subject with
        | Except.error e => ([Event.fetch i], Except.error e)
        | Except.ok _ =>
          let rp := attachParts sender m.msgId dir m.parts
          match rp.2 with
          | Except.error e => (Event.fetch i :: rp.1, Except.error e)
          | Except.ok recs =>
            let r := attachMsgs sender dir mb rest
            (Event.fetch i :: (rp.1 ++ r.1), Except.map (fun recs' => recs ++ recs') r.2)

/-- Per-sender loop of `get_attachments` (lines 153-210): search by
sender; an empty result logs a warning and continues. -/
def attachSenders (dir : String) (mb : List Message) : List String → List Event × Except PyError (List (String × String))
  | [] => ([], Except.ok [])
  | s :: rest =>
      let ids := searchIds mb (fun m => m.fromAddr == s)
      if ids.isEmpty then
        let r := attachSenders dir mb rest
        (Event.search s!"FROM \"{s}\"" :: Event.warnLog s!"No emails found for sender: {s}" :: r.1, r.2)
      else
        let r := attachMsgs s dir mb ids
        match r.2 with
        | Except.error e => (Event.search s!"FROM \"{s}\"" :: r.1, Except.error e)
        | Except.ok recs =>
          let r' := attachSenders dir mb rest
          (Event.search s!"FROM \"{s}\"" :: (r.1 ++ r'.1),
           Except.map (fun recs' => recs ++ recs') r'.2)

/-- Embedding of `get_attachments` (lines 129-216): read the sender
list, create the destination directory, walk every sender; any
uncaught failure is logged and re-raised. -/
def get_attachments (mb : List Message) (jf : JsonFile) (dir : String) :
    List Event × Except PyError (List (String × String)) :=
  match loadEmails jf with
  | Except.error e => ([Event.errorLog "Failed to download attachments"], Except.error e)
  | Except.ok senders =>
      let r := attachSenders dir mb senders
      match r.2 with
      | Except.error e =>
          (Event.makedirs dir :: r.1 ++ [Event.errorLog "Failed to download attachments"],
           Except.error e)
      | Except.ok recs => (Event.makedirs dir :: r.1, Except.ok recs)

/-- Rendering of a notification summary by `DataFrame.to_string(index=False)`.
The exact pandas layout is a presentation concern the spec leaves to the
implementation; this model joins the padded rows with newlines. -/
def toStringRender (rows : List (String × String)) : String :=
  rows.foldl (fun acc row => acc ++ "\n" ++ row.1 ++ " " ++ row.2) "From Subject"

/-- The whole run's input: configuration files, the mailbox the session
would see, and the environment oracles. -/
structure Env where
  credFile : CredFile
  connectOk : Bool
  mailbox : List Message
  deleteList : JsonFile
  notifyList : JsonFile
  attachList : JsonFile
  httpOutcome : HttpOutcome
deriving DecidableEq

/-- Embedding of `main` (lines 219-244): load credentials, connect,
delete, print, notify, send to Telegram, print, download attachments,
print, logout.  Note the source has no `try`/`finally`: an error raised
by any stage propagates out of `main` without reaching
`mail.logout()`.  (Named `mainRun` because Lean reserves `main`.) -/
def mainRun (env : Env) : List Event × Except PyError Unit :=
  let rc := load_credentials env.credFile
  match rc.2 with
  | Except.error e => (rc.1, Except.error e)
  | Except.ok creds =>
    let rconn := connect_to_gmail_imap creds.user creds.password env.connectOk env.mailbox
    match rconn.2 with
    | Except.error e => (rc.1 ++ rconn.1, Except.error e)
    | Except.ok mb0 =>
      let rd := get_emails_to_delete mb0 env.deleteList
      match rd.2 with
      | Except.error e => (rc.1 ++ rconn.1 ++ rd.1, Except.error e)
      | Except.ok d =>
        let rn := get_emails_to_notify d.1 env.notifyList
        match rn.2 with
        | Except.error e =>
            (rc.1 ++ rconn.1 ++ rd.1 ++ [Event.printDelete d.2] ++ rn.1, Except.error e)
        | Except.ok n =>
          let message :=
            if n.2.isEmpty then "No new emails matching the criteria."
            else "New email(s):\n" ++ toStringRender n.2
          let rs := send_to_telegram creds.telegram_token creds.telegram_chat_id message env.httpOutcome
          let ra := get_attachments n.1 env.attachList "./attachments"
          match ra.2 with
          | Except.error e =>
              (rc.1 ++ rconn.1 ++ rd.1 ++ [Event.printDelete d.2] ++ rn.1 ++ rs.1 ++
                 [Event.printNotify n.2] ++ ra.1, Except.error e)
          | Except.ok recs =>
              (rc.1 ++ rconn.1 ++ rd.1 ++ [Event.printDelete d.2] ++ rn.1 ++ rs.1 ++
                 [Event.printNotify n.2] ++ ra.1 ++
                 (if recs.isEmpty then [] else [Event.printAttach recs]) ++ [Event.logout],
               Except.ok ())

/-- Property of a message transformer: it leaves the identifier, From
value, subject and parts untouched (it may only set flags). -/
def PreservesCore (G : Message → Message) : Prop :=
  ∀ m, (G m).msgId = m.msgId ∧ (G m).fromAddr = m.fromAddr ∧
    (G m).subject = m.subject ∧ (G m).parts = m.parts

/-- Property of a message transformer: it never clears the seen flag. -/
def SeenMono (G : Message → Message) : Prop :=
  ∀ m, m.seen = true → (G m).seen = true

/-- Extract the text of a Telegram post from an event. -/
def sendText : Event → Option String
  | Event.sendMessage _ t => some t
  | _ => none

/-- Spec-side validity of the credentials file: it parses and carries
the four required keys. -/
def credOk : CredFile → Bool
  | CredFile.parsed entries =>
      (entries.find? (fun kv => kv.1 == "user")).isSome &&
      (entries.find? (fun kv => kv.1 == "password")).isSome &&
      (entries.find? (fun kv => kv.1 == "telegram_token")).isSome &&
      (entries.find? (fun kv => kv.1 == "telegram_chat_id")).isSome
  | _ => false

/-- The name a part is saved under, with a dummy value in the
(unreachable under a successful run) case where the filename does not
decode. -/
def specPartName (msgId : String) (p : MimePart) : String :=
  match partFilename msgId p with
  | Except.ok n => n
  | Except.error _ => ""

/-- Specification-side description of the Attachment Stage output,
following the spec's words: one record per successfully saved
attachment, in sender order then mailbox order then part order, each
named `<messageId>_<decodedOrSyntheticFilename>`. -/
def attachSpec (mb : List Message) (senders : List String) : List (String × String) :=
  senders.flatMap (fun s =>
    (mb.filter (fun m => m.fromAddr == s)).flatMap (fun m =>
      (m.parts.filter (fun p => isAttachPart p && p.writeOk)).map (fun p =>
        (s, mkSavedName m.msgId (specPartName m.msgId p)))))

/-- Drop every Subject fragment after the first. -/
def firstFragOnly (m : Message) : Message :=
  { m with subject := m.subject.map (fun fs => fs.take 1) }

/-- Credentials-file content with all four keys, for concrete runs. -/
def credEntriesW : List (String × String) :=
  [("user", "u"), ("password", "p"), ("telegram_token", "t"), ("telegram_chat_id", "c")]

/-- Run input whose delete-list file is missing: the Deletion Stage
raises, `main` propagates the error, and `logout` is never reached. -/
def envDeleteListMissing : Env :=
  { credFile := CredFile.parsed credEntriesW
    connectOk := true
    mailbox := []
    deleteList := JsonFile.missing
    notifyList := JsonFile.ok []
    attachList := JsonFile.ok []
    httpOutcome := HttpOutcome.response 200 }

/-- Run input with everything empty, used to witness `mainRun` facts. -/
def envAllEmpty : Env :=
  { credFile := CredFile.parsed credEntriesW
    connectOk := true
    mailbox := []
    deleteList := JsonFile.ok []
    notifyList := JsonFile.ok []
    attachList := JsonFile.ok []
    httpOutcome := HttpOutcome.response 200 }

/-- An unseen watchlisted message with a decodable subject. -/
def msgNotifyW : Message :=
  { msgId := "1", fromAddr := "a@x", subject := some [Fragment.str "s"],
    seen := false, deleted := false, parts := [] }

/-- An unseen watchlisted message whose Subject bytes do not decode. -/
def msgBadSubject : Message :=
  { msgId := "1", fromAddr := "boss@x.com", subject := some [Fragment.bytes none],
    seen := false, deleted := false, parts := [] }

/-- A second unseen watchlisted message, behind `msgBadSubject` in the
mailbox, with a decodable subject. -/
def msgAfterBad : Message :=
  { msgId := "2", fromAddr := "boss@x.com", subject := some [Fragment.str "ok"],
    seen := false, deleted := false, parts := [] }

/-- An attachment part named `invoice.pdf` whose write succeeds. -/
def partInvoice : MimePart :=
  { isMultipart := false, hasContentDisposition := true,
    filename := some [Fragment.str "invoice.pdf"], writeOk := true }

/-- A message carrying two parts that are both named `invoice.pdf`: both
get saved under the same name. -/
def msgTwoInvoices : Message :=
  { msgId := "7", fromAddr := "docs@x.com", subject := some [Fragment.str "s"],
    seen := true, deleted := false, parts := [partInvoice, partInvoice] }

/-- An attachment part whose write fails. -/
def partBadWrite : MimePart :=
  { isMultipart := false, hasContentDisposition := true,
    filename := some [Fragment.str "bad.pdf"], writeOk := false }

/-- A message with one failing and one succeeding attachment write. -/
def msgMixedWrites : Message :=
  { msgId := "9", fromAddr := "docs@x.com", subject := some [Fragment.str "s"],
    seen := true, deleted := false, parts := [partBadWrite, partInvoice] }

/-! ### Basic lemmas about the mailbox operations -/

theorem mem_searchIds {mb : List Message} {p : Message → Bool} {i : String} :
    i ∈ searchIds mb p ↔ ∃ m ∈ mb, p m = true ∧ m.msgId = i := by
  simp only [searchIds, List.mem_map, List.mem_filter]
  constructor
  · rintro ⟨m, ⟨hm, hp⟩, rfl⟩
    exact ⟨m, hm, hp, rfl⟩
  · rintro ⟨m, hm, hp, rfl⟩
    exact ⟨m, ⟨hm, hp⟩, rfl⟩

theorem searchIds_length (mb : List Message) (p : Message → Bool) :
    (searchIds mb p).length = (mb.filter p).length := by
  simp [searchIds]

theorem searchIds_map {G : Message → Message} {p : Message → Bool}
    (hid : ∀ m, (G m).msgId = m.msgId) (hp : ∀ m, p (G m) = p m) (mb : List Message) :
    searchIds (mb.map G) p = searchIds mb p := by
  unfold searchIds
  rw [List.filter_map, List.map_map]
  have h1 : (p ∘ G) = p := funext hp
  have h2 : ((fun m => m.msgId) ∘ G) = fun (m : Message) => m.msgId := funext hid
  rw [h1, h2]

theorem fetchMsg_map {G : Message → Message} (hid : ∀ m, (G m).msgId = m.msgId)
    (mb : List Message) (i : String) :
    fetchMsg (mb.map G) i = Option.map G (fetchMsg mb i) := by
  unfold fetchMsg
  have h : ((fun m => m.msgId == i) ∘ G) = (fun (m : Message) => m.msgId == i) := by
    funext m
    simp [Function.comp, hid m]
  rw [List.find?_map, h]

theorem fetchMsg_mem {mb : List Message} {i : String} {m : Message}
    (h : fetchMsg mb i = some m) : m ∈ mb ∧ m.msgId = i := by
  refine ⟨List.mem_of_find?_eq_some h, ?_⟩
  have := List.find?_some h
  simpa using this

theorem fetchMsg_nodup {mb : List Message} (hN : (mb.map Message.msgId).Nodup)
    {m : Message} (hm : m ∈ mb) : fetchMsg mb m.msgId = some m := by
  induction mb with
  | nil => cases hm
  | cons a t ih =>
    rw [List.map_cons, List.nodup_cons] at hN
    rcases List.mem_cons.mp hm with rfl | hmt
    · simp [fetchMsg, List.find?]
    · have hne : (a.msgId == m.msgId) = false := by
        apply beq_eq_false_iff_ne.mpr
        intro he
        exact hN.1 (he ▸ List.mem_map_of_mem Message.msgId hmt)
      have ht := ih hN.2 hmt
      unfold fetchMsg at ht ⊢
      rw [List.find?_cons, hne]
      exact ht

theorem mem_msgId_inj {mb : List Message} (hN : (mb.map Message.msgId).Nodup)
    {m₁ m₂ : Message} (h₁ : m₁ ∈ mb) (h₂ : m₂ ∈ mb) (h : m₁.msgId = m₂.msgId) :
    m₁ = m₂ := by
  have e1 := fetchMsg_nodup hN h₁
  have e2 := fetchMsg_nodup hN h₂
  rw [h, e2] at e1
  exact Option.some_injective _ e1.symm

theorem setSeenFn_core (i : String) : PreservesCore (setSeenFn i) := by
  intro m
  unfold setSeenFn
  split <;> simp

theorem setSeenFn_mono (i : String) : SeenMono (setSeenFn i) := by
  intro m h
  unfold setSeenFn
  split <;> simp [h]

theorem setSeenFn_of_notMem {i : String} {m : Message} (h : ¬m.msgId = i) :
    setSeenFn i m = m := by
  unfold setSeenFn
  rw [if_neg]
  simp [h]

theorem setSeenFn_seen {i : String} {m : Message} (h : m.msgId = i) :
    (setSeenFn i m).seen = true := by
  unfold setSeenFn
  rw [if_pos (by simp [h])]

theorem setDeletedFn_core (i : String) : PreservesCore (setDeletedFn i) := by
  intro m
  unfold setDeletedFn
  split <;> simp

theorem preservesCore_comp {F G : Message → Message}
    (hF : PreservesCore F) (hG : PreservesCore G) : PreservesCore (F ∘ G) := by
  intro m
  rcases hG m with ⟨h1, h2, h3, h4⟩
  rcases hF (G m) with ⟨g1, g2, g3, g4⟩
  exact ⟨g1.trans h1, g2.trans h2, g3.trans h3, g4.trans h4⟩

theorem seenMono_comp {F G : Message → Message}
    (hF : SeenMono F) (hG : SeenMono G) : SeenMono (F ∘ G) := by
  intro m h
  exact hF (G m) (hG m h)

theorem preservesCore_id : PreservesCore (fun m => m) := by
  intro m
  exact ⟨rfl, rfl, rfl, rfl⟩

theorem seenMono_id : SeenMono (fun m => m) := by
  intro m h
  exact h

/-! ### Deletion Stage (C1) -/

theorem searchIds_setDeleted (mb : List Message) (i s : String) :
    searchIds (setDeleted mb i) (fun m => m.fromAddr == s) =
      searchIds mb (fun m => m.fromAddr == s) := by
  unfold setDeleted
  exact searchIds_map (fun m => ((setDeletedFn_core i) m).1)
    (fun m => by rw [((setDeletedFn_core i) m).2.1]) mb

theorem searchIds_foldl_setDeleted (ids : List String) (mb : List Message) (s : String) :
    searchIds (ids.foldl setDeleted mb) (fun m => m.fromAddr == s) =
      searchIds mb (fun m => m.fromAddr == s) := by
  induction ids generalizing mb with
  | nil => rfl
  | cons i t ih => rw [List.foldl_cons, ih, searchIds_setDeleted]

theorem deleteLoop_rows (senders : List String) (mb : List Message) :
    (deleteLoop mb senders).2.2 =
      senders.map (fun s => (s, (searchIds mb (fun m => m.fromAddr == s)).length)) := by
  induction senders generalizing mb with
  | nil => rfl
  | cons s rest ih =>
    simp only [deleteLoop, List.map_cons]
    rw [ih]
    congr 1
    apply List.map_congr_left
    intro s' _
    rw [searchIds_foldl_setDeleted]

theorem deleteLoop_no_expunge (senders : List String) (mb : List Message) :
    Event.expunge ∉ (deleteLoop mb senders).1 := by
  induction senders generalizing mb with
  | nil => simp [deleteLoop]
  | cons s rest ih =>
    simp only [deleteLoop]
    intro h
    rcases List.mem_cons.mp h with h | h
    · cases h
    · rcases List.mem_append.mp h with h | h
      · rcases List.mem_map.mp h with ⟨i, _, h⟩
        cases h
      · exact ih _ h

/-- C1: for every blocklist (of any length, including zero), the
Deletion Stage returns one `(sender, matchedCount)` row per sender, in
input order — a sender with zero matches yields a `(sender, 0)` row —
and its trace performs `expunge` exactly once, as its last mailbox
action, after every sender's search/store block.  The counts are list
lengths, hence non-negative by type. -/
theorem C1_deletion_summary_and_single_expunge (mb : List Message) (senders : List String) :
    (∃ mbF, (get_emails_to_delete mb (JsonFile.ok senders)).2 =
       Except.ok (mbF, senders.map
         (fun s => (s, (mb.filter (fun m => m.fromAddr == s)).length)))) ∧
    (∃ t, (get_emails_to_delete mb (JsonFile.ok senders)).1 = t ++ [Event.expunge] ∧
       Event.expunge ∉ t) := by
  constructor
  · refine ⟨expungeMb (deleteLoop mb senders).2.1, ?_⟩
    simp only [get_emails_to_delete, loadEmails]
    rw [deleteLoop_rows]
    have h : (fun (s : String) => (s, (searchIds mb (fun m => m.fromAddr == s)).length)) =
        (fun (s : String) => (s, (mb.filter (fun m => m.fromAddr == s)).length)) := by
      funext s
      rw [searchIds_length]
    rw [h]
  · refine ⟨(deleteLoop mb senders).1, rfl, deleteLoop_no_expunge senders mb⟩

/-! ### Session close on error paths (C2) -/

/-- C2: the claim "the mailbox session close operation (logout) is
invoked exactly once on every exit path" is false on the code: `main`
has no `try`/`finally`, so when a stage raises — here the Deletion Stage
because `delete_email_list.json` is missing — the run ends in the error
and its trace contains no `logout` at all. -/
theorem C2_logout_skipped_on_stage_error :
    Event.logout ∉ (mainRun envDeleteListMissing).1 ∧
    (mainRun envDeleteListMissing).2 = Except.error PyError.ioError := by
  constructor
  · decide
  · rfl

/-! ### Configuration Loader failures (C3) -/

theorem load_credentials_bad {cf : CredFile} (h : credOk cf = false) :
    ∃ e, load_credentials cf =
      ([Event.errorLog "Failed to load credentials"], Except.error e) := by
  cases cf with
  | missing => exact ⟨PyError.ioError, rfl⟩
  | malformed => exact ⟨PyError.parseError, rfl⟩
  | parsed entries =>
    cases h1 : entries.find? (fun kv => kv.1 == "user") with
    | none =>
      exact ⟨PyError.keyError "user", by simp [load_credentials, lookupKey, h1]⟩
    | some kv1 =>
      cases h2 : entries.find? (fun kv => kv.1 == "password") with
      | none =>
        exact ⟨PyError.keyError "password", by simp [load_credentials, lookupKey, h1, h2]⟩
      | some kv2 =>
        cases h3 : entries.find? (fun kv => kv.1 == "telegram_token") with
        | none =>
          exact ⟨PyError.keyError "telegram_token",
            by simp [load_credentials, lookupKey, h1, h2, h3]⟩
        | some kv3 =>
          cases h4 : entries.find? (fun kv => kv.1 == "telegram_chat_id") with
          | none =>
            exact ⟨PyError.keyError "telegram_chat_id",
              by simp [load_credentials, lookupKey, h1, h2, h3, h4]⟩
          | some kv4 =>
            exfalso
            rw [credOk] at h
            simp [h1, h2, h3, h4] at h

/-- C3: if the credentials file is missing, malformed, or lacks any of
the four keys, the run fails with the configuration error (the loader
logs the failure and re-raises the underlying IO/parse/key error, which
is what the spec's `ConfigError` abstracts), and the trace contains no
`connect` event: no network connection is attempted. -/
theorem C3_config_error_no_connect (env : Env) (h : credOk env.credFile = false) :
    (∃ e, (mainRun env).2 = Except.error e) ∧
    (∀ u, Event.connect u ∉ (mainRun env).1) := by
  obtain ⟨e, hl⟩ := load_credentials_bad h
  have hmain : mainRun env =
      ([Event.errorLog "Failed to load credentials"], Except.error e) := by
    unfold mainRun
    rw [hl]
  rw [hmain]
  refine ⟨⟨e, rfl⟩, fun u hu => ?_⟩
  exact Event.noConfusion (List.mem_singleton.mp hu)

theorem C3_config_error_no_connect_witness :
    (∃ e, (mainRun { envAllEmpty with credFile := CredFile.missing }).2 = Except.error e) ∧
    (∀ u, Event.connect u ∉ (mainRun { envAllEmpty with credFile := CredFile.missing }).1) :=
  C3_config_error_no_connect { envAllEmpty with credFile := CredFile.missing } (by decide)

/-! ### Notification Stage (C4, C5) -/

theorem except_map_eq_ok {ε α β : Type _} {f : α → β} {r : Except ε α} {y : β}
    (h : Except.map f r = Except.ok y) : ∃ x, r = Except.ok x ∧ y = f x := by
  cases r with
  | error e => simp [Except.map] at h
  | ok x =>
    simp only [Except.map] at h
    injection h with h'
    exact ⟨x, rfl, h'.symm⟩

theorem notifyMsgs_ok {mb : List Message} {ids : List String} {tr : List Event}
    {mb' : List Message} {rows : List (String × String)}
    (h : notifyMsgs mb ids = (tr, Except.ok (mb', rows))) :
    ∃ G : Message → Message,
      mb' = mb.map G ∧ PreservesCore G ∧ SeenMono G ∧
      (∀ m : Message, m.msgId ∉ ids → G m = m) ∧
      (∀ m : Message, m.msgId ∈ ids → (G m).seen = true) ∧
      (∀ r ∈ rows, ∃ i ∈ ids, ∃ m, fetchMsg mb i = some m ∧
        r.1 = m.fromAddr ∧ decodeSubject m.subject = Except.ok r.2) ∧
      (∀ i ∈ ids, ∃ m, fetchMsg mb i = some m ∧ ∃ s, decodeSubject m.subject = Except.ok s) := by
  induction ids generalizing mb tr mb' rows with
  | nil =>
    simp only [notifyMsgs, Prod.mk.injEq, Except.ok.injEq] at h
    obtain ⟨-, h2, h3⟩ := h
    subst h2
    subst h3
    refine ⟨fun m => m, by simp, preservesCore_id, seenMono_id, fun m _ => rfl, ?_, ?_, ?_⟩
    · intro m hm
      cases hm
    · intro r hr
      cases hr
    · intro i hi
      cases hi
  | cons i rest ih =>
    cases hf : fetchMsg mb i with
    | none =>
      simp only [notifyMsgs, hf, Prod.mk.injEq] at h
      exact absurd h.2 (by simp)
    | some m =>
      cases hd : decodeSubject m.subject with
      | error e =>
        simp only [notifyMsgs, hf, hd, Prod.mk.injEq] at h
        exact absurd h.2 (by simp)
      | ok subj =>
        simp only [notifyMsgs, hf, hd, Prod.mk.injEq] at h
        obtain ⟨htr, hres⟩ := h
        obtain ⟨x, hr2, hxy⟩ := except_map_eq_ok hres
        obtain ⟨mb₁, rows₁⟩ := x
        simp only [Prod.mk.injEq] at hxy
        obtain ⟨hmb', hrows⟩ := hxy
        have heq : notifyMsgs (setSeen mb i) rest =
            ((notifyMsgs (setSeen mb i) rest).1, Except.ok (mb₁, rows₁)) := by
          rw [← hr2]
        obtain ⟨G', hmb₁, hcore', hmono', hskip', hmark', hrows', hdec'⟩ := ih heq
        have transport : ∀ (j : String) (m' : Message),
            fetchMsg (setSeen mb i) j = some m' →
            ∃ m₀, fetchMsg mb j = some m₀ ∧ m' = setSeenFn i m₀ := by
          intro j m' hj
          rw [setSeen, fetchMsg_map (fun mm => ((setSeenFn_core i) mm).1)] at hj
          cases hfm0 : fetchMsg mb j with
          | none => rw [hfm0] at hj; cases hj
          | some m₀ =>
            rw [hfm0] at hj
            simp only [Option.map_some'] at hj
            exact ⟨m₀, rfl, (Option.some_injective _ hj).symm⟩
        refine ⟨G' ∘ setSeenFn i, ?_, preservesCore_comp hcore' (setSeenFn_core i),
          seenMono_comp hmono' (setSeenFn_mono i), ?_, ?_, ?_, ?_⟩
        · rw [hmb', hmb₁, setSeen, List.map_map]
        · intro mm hnot
          simp only [List.mem_cons, not_or] at hnot
          have h1 : setSeenFn i mm = mm := setSeenFn_of_notMem hnot.1
          show G' (setSeenFn i mm) = mm
          rw [h1]
          exact hskip' mm hnot.2
        · intro mm hmem
          rcases List.mem_cons.mp hmem with he | hmemr
          · show (G' (setSeenFn i mm)).seen = true
            exact hmono' _ (setSeenFn_seen he)
          · show (G' (setSeenFn i mm)).seen = true
            apply hmark'
            rw [((setSeenFn_core i) mm).1]
            exact hmemr
        · intro r hr
          rw [hrows] at hr
          rcases List.mem_cons.mp hr with he | hmemr
          · exact ⟨i, List.mem_cons_self i rest, m, hf, by rw [he], by rw [he]; exact hd⟩
          · obtain ⟨j, hj, m', hfm', hfrom, hdecm⟩ := hrows' r hmemr
            obtain ⟨m₀, hfm0, hm'⟩ := transport j m' hfm'
            refine ⟨j, List.mem_cons_of_mem i hj, m₀, hfm0, ?_, ?_⟩
            · rw [hfrom, hm', ((setSeenFn_core i) m₀).2.1]
            · rw [← ((setSeenFn_core i) m₀).2.2.1, ← hm']
              exact hdecm
        · intro j hj
          rcases List.mem_cons.mp hj with he | hmemr
          · subst he
            exact ⟨m, hf, subj, hd⟩
          · obtain ⟨m', hfm', s, hdecm⟩ := hdec' j hmemr
            obtain ⟨m₀, hfm0, hm'⟩ := transport j m' hfm'
            refine ⟨m₀, hfm0, s, ?_⟩
            rw [← ((setSeenFn_core i) m₀).2.2.1, ← hm']
            exact hdecm

theorem notifySenders_ok {wl : List String} {mb : List Message} {tr : List Event}
    {mb' : List Message} {rows : List (String × String)}
    (hN : (mb.map Message.msgId).Nodup)
    (h : notifySenders mb wl = (tr, Except.ok (mb', rows))) :
    ∃ G : Message → Message,
      mb' = mb.map G ∧ PreservesCore G ∧ SeenMono G ∧
      (∀ m ∈ mb, m.fromAddr ∈ wl → (G m).seen = true) ∧
      (∀ r ∈ rows, ∃ m ∈ mb, m.seen = false ∧ m.fromAddr ∈ wl ∧
        r.1 = m.fromAddr ∧ decodeSubject m.subject = Except.ok r.2) ∧
      (∀ m ∈ mb, m.seen = false → m.fromAddr ∈ wl →
        ∃ s, decodeSubject m.subject = Except.ok s) := by
  induction wl generalizing mb tr mb' rows with
  | nil =>
    simp only [notifySenders, Prod.mk.injEq, Except.ok.injEq] at h
    obtain ⟨-, h2, h3⟩ := h
    subst h2
    subst h3
    refine ⟨fun m => m, by simp, preservesCore_id, seenMono_id, ?_, ?_, ?_⟩
    · intro m _ hf
      cases hf
    · intro r hr
      cases hr
    · intro m _ _ hf
      cases hf
  | cons s rest ih =>
    cases hres : (notifyMsgs mb (searchIds mb fun m => m.fromAddr == s && !m.seen)).2 with
    | error e =>
      simp only [notifySenders, hres, Prod.mk.injEq] at h
      exact absurd h.2 (by simp)
    | ok x =>
      obtain ⟨mb₁, rows₁⟩ := x
      simp only [notifySenders, hres, Prod.mk.injEq] at h
      obtain ⟨htr, hmapres⟩ := h
      obtain ⟨y, hy2, hxy⟩ := except_map_eq_ok hmapres
      obtain ⟨mb₂, rows₂⟩ := y
      simp only [Prod.mk.injEq] at hxy
      obtain ⟨hmb', hrows⟩ := hxy
      have heq₁ : notifyMsgs mb (searchIds mb fun m => m.fromAddr == s && !m.seen) =
          ((notifyMsgs mb (searchIds mb fun m => m.fromAddr == s && !m.seen)).1,
            Except.ok (mb₁, rows₁)) := by
        rw [← hres]
      obtain ⟨G₁, hmb₁, hco1, hmo1, hskip1, hmark1, hrows1, hdec1⟩ := notifyMsgs_ok heq₁
      have hN1 : (mb₁.map Message.msgId).Nodup := by
        rw [hmb₁, List.map_map]
        have hcomp : (Message.msgId ∘ G₁) = Message.msgId := funext (fun m => (hco1 m).1)
        rw [hcomp]
        exact hN
      have heq₂ : notifySenders mb₁ rest =
          ((notifySenders mb₁ rest).1, Except.ok (mb₂, rows₂)) := by
        rw [← hy2]
      obtain ⟨G₂, hmb₂, hco2, hmo2, hmarks2, hrows2, hdec2⟩ := ih hN1 heq₂
      have hid_mem : ∀ m ∈ mb,
          (m.msgId ∈ searchIds mb (fun m => m.fromAddr == s && !m.seen) ↔
            (m.fromAddr == s && !m.seen) = true) := by
        intro m hm
        constructor
        · intro hin
          obtain ⟨m₀, hm₀, hp₀, hid₀⟩ := mem_searchIds.mp hin
          have : m₀ = m := mem_msgId_inj hN hm₀ hm hid₀
          rw [← this]
          exact hp₀
        · intro hp
          exact mem_searchIds.mpr ⟨m, hm, hp, rfl⟩
      have hmemG₁ : ∀ m ∈ mb, G₁ m ∈ mb₁ := by
        intro m hm
        rw [hmb₁]
        exact List.mem_map_of_mem G₁ hm
      refine ⟨G₂ ∘ G₁, ?_, preservesCore_comp hco2 hco1, seenMono_comp hmo2 hmo1, ?_, ?_, ?_⟩
      · rw [hmb', hmb₂, hmb₁, List.map_map]
      · -- every message of a watchlisted sender ends up seen
        intro m hm hf
        by_cases hin : m.msgId ∈ searchIds mb (fun m => m.fromAddr == s && !m.seen)
        · exact hmo2 _ (hmark1 m hin)
        · have hG1 : G₁ m = m := hskip1 m hin
          rcases List.mem_cons.mp hf with he | hfr
          · have hps : (m.fromAddr == s && !m.seen) = false := by
              cases hps : (m.fromAddr == s && !m.seen) with
              | true => exact absurd ((hid_mem m hm).mpr hps) hin
              | false => rfl
            have hseen : m.seen = true := by
              simp [he] at hps
              exact hps
            show (G₂ (G₁ m)).seen = true
            rw [hG1]
            exact hmo2 m hseen
          · show (G₂ (G₁ m)).seen = true
            apply hmarks2 (G₁ m) (hmemG₁ m hm)
            rw [(hco1 m).2.1]
            exact hfr
      · -- every returned row comes from an unseen watchlisted message
        intro r hr
        rw [hrows] at hr
        rcases List.mem_append.mp hr with hr1 | hr2
        · obtain ⟨i, hi, m', hfm', hfrom', hdec'⟩ := hrows1 r hr1
          obtain ⟨m₀, hm₀, hp₀, hid₀⟩ := mem_searchIds.mp hi
          obtain ⟨hm'mem, hm'id⟩ := fetchMsg_mem hfm'
          have hm'm₀ : m' = m₀ := mem_msgId_inj hN hm'mem hm₀ (by rw [hm'id, ← hid₀])
          subst hm'm₀
          have hab := hp₀
          simp only [Bool.and_eq_true] at hab
          have hfaddr : (m'.fromAddr == s) = true := hab.1
          have hseen : m'.seen = false := by
            have hb := hab.2
            simpa using hb
          exact ⟨m', hm'mem, hseen,
            List.mem_cons.mpr (Or.inl (eq_of_beq hfaddr)), hfrom', hdec'⟩
        · obtain ⟨m₁, hm₁, hseen₁, hfrom₁, hr1, hdecr⟩ := hrows2 r hr2
          rw [hmb₁] at hm₁
          obtain ⟨m₀, hm₀, hGm₀⟩ := List.mem_map.mp hm₁
          have hseen₀ : m₀.seen = false := by
            cases hs₀ : m₀.seen with
            | false => rfl
            | true =>
              have := hmo1 m₀ hs₀
              rw [hGm₀] at this
              rw [this] at hseen₁
              cases hseen₁
          have hfrom₀ : m₁.fromAddr = m₀.fromAddr := by
            rw [← hGm₀]
            exact (hco1 m₀).2.1
          have hsubj₀ : m₁.subject = m₀.subject := by
            rw [← hGm₀]
            exact (hco1 m₀).2.2.1
          refine ⟨m₀, hm₀, hseen₀, List.mem_cons.mpr (Or.inr ?_), ?_, ?_⟩
          · rw [← hfrom₀]
            exact hfrom₁
          · rw [hr1, hfrom₀]
          · rw [← hsubj₀]
            exact hdecr
      · -- every unseen watchlisted message has a decodable subject
        intro m hm hseen hf
        by_cases hin : m.msgId ∈ searchIds mb (fun m => m.fromAddr == s && !m.seen)
        · obtain ⟨m', hfm', s', hdec'⟩ := hdec1 m.msgId hin
          have := fetchMsg_nodup hN hm
          rw [this] at hfm'
          have hmm' : m = m' := Option.some_injective _ hfm'
          rw [hmm']
          exact ⟨s', hdec'⟩
        · have hG1 : G₁ m = m := hskip1 m hin
          rcases List.mem_cons.mp hf with he | hfr
          · exfalso
            apply hin
            apply (hid_mem m hm).mpr
            simp [he, hseen]
          · have hm₁ : m ∈ mb₁ := by
              rw [← hG1]
              exact hmemG₁ m hm
            apply hdec2 m hm₁ hseen
            exact hfr

theorem notifySenders_allseen (wl : List String) (mb : List Message) :
    (∀ m ∈ mb, m.fromAddr ∈ wl → m.seen = true) →
    (notifySenders mb wl).2 = Except.ok (mb, []) := by
  induction wl with
  | nil => intro _; rfl
  | cons s rest ih =>
    intro h
    have hids : searchIds mb (fun m => m.fromAddr == s && !m.seen) = [] := by
      unfold searchIds
      rw [List.filter_eq_nil_iff.mpr ?_, List.map_nil]
      intro m hm
      cases hfa : (m.fromAddr == s) with
      | false => simp [hfa]
      | true =>
        have : m.seen = true :=
          h m hm (List.mem_cons.mpr (Or.inl (eq_of_beq hfa)))
        simp [hfa, this]
    have hrest : (notifySenders mb rest).2 = Except.ok (mb, []) :=
      ih (fun m hm hf => h m hm (List.mem_cons_of_mem s hf))
    simp only [notifySenders, hids, notifyMsgs, hrest, Except.map]
    rfl

/-- C4: the Notification Stage returns only rows coming from messages
that are from a watchlisted sender and were unseen before the stage ran
(each row being the padded From value and decoded subject of such a
message); afterwards every message of a watchlisted sender is marked
Seen, so a second run of the stage on the resulting mailbox state
returns the empty summary and leaves the state unchanged. -/
theorem C4_notification_stage_unseen_and_idempotent (mb : List Message) (wl : List String)
    (tr : List Event) (mb' : List Message) (rows : List (String × String))
    (hN : (mb.map Message.msgId).Nodup)
    (h : get_emails_to_notify mb (JsonFile.ok wl) = (tr, Except.ok (mb', rows))) :
    (∀ r ∈ rows, ∃ m ∈ mb, m.seen = false ∧ m.fromAddr ∈ wl ∧
       ∃ subj, decodeSubject m.subject = Except.ok subj ∧
         r = (pyLjust m.fromAddr 30, pyLjust subj 50)) ∧
    (∀ m' ∈ mb', m'.fromAddr ∈ wl → m'.seen = true) ∧
    (get_emails_to_notify mb' (JsonFile.ok wl)).2 = Except.ok (mb', []) := by
  cases hres : (notifySenders mb wl).2 with
  | error e =>
    simp only [get_emails_to_notify, loadEmails, hres, Prod.mk.injEq] at h
    exact absurd h.2 (by simp)
  | ok x =>
    obtain ⟨mbS, rowsS⟩ := x
    simp only [get_emails_to_notify, loadEmails, hres, Prod.mk.injEq, Except.ok.injEq] at h
    obtain ⟨-, hmb', hrows⟩ := h
    subst hmb'
    have heq : notifySenders mb wl = ((notifySenders mb wl).1, Except.ok (mbS, rowsS)) := by
      rw [← hres]
    obtain ⟨G, hmbG, hco, hmo, hmarks, hrowsP, -⟩ := notifySenders_ok hN heq
    have hallseen : ∀ m' ∈ mbS, m'.fromAddr ∈ wl → m'.seen = true := by
      intro m' hm' hf
      rw [hmbG] at hm'
      obtain ⟨m₀, hm₀, hGm₀⟩ := List.mem_map.mp hm'
      rw [← hGm₀]
      apply hmarks m₀ hm₀
      rw [← (hco m₀).2.1, hGm₀]
      exact hf
    refine ⟨?_, hallseen, ?_⟩
    · intro r hr
      rw [← hrows] at hr
      obtain ⟨r₀, hr₀, hrr₀⟩ := List.mem_map.mp hr
      obtain ⟨m, hm, hseen, hf, hfrom, hdec⟩ := hrowsP r₀ hr₀
      refine ⟨m, hm, hseen, hf, r₀.2, hdec, ?_⟩
      rw [← hrr₀, ← hfrom]
    · have hsec := notifySenders_allseen wl mbS hallseen
      simp only [get_emails_to_notify, loadEmails, hsec, List.map_nil]

/-- Closed instance of the C4 theorem on a one-message mailbox. -/
theorem C4_notification_stage_unseen_and_idempotent_witness :
    (∀ r ∈ [(pyLjust "a@x" 30, pyLjust "s" 50)], ∃ m ∈ [msgNotifyW], m.seen = false ∧
       m.fromAddr ∈ ["a@x"] ∧
       ∃ subj, decodeSubject m.subject = Except.ok subj ∧
         r = (pyLjust m.fromAddr 30, pyLjust subj 50)) ∧
    (∀ m' ∈ [{ msgNotifyW with seen := true }], m'.fromAddr ∈ ["a@x"] → m'.seen = true) ∧
    (get_emails_to_notify [{ msgNotifyW with seen := true }] (JsonFile.ok ["a@x"])).2 =
      Except.ok ([{ msgNotifyW with seen := true }], []) :=
  C4_notification_stage_unseen_and_idempotent [msgNotifyW] ["a@x"]
    [Event.search "(FROM \"a@x\" UNSEEN)", Event.fetch "1", Event.store "1" "\\Seen"]
    [{ msgNotifyW with seen := true }] [(pyLjust "a@x" 30, pyLjust "s" 50)]
    (by decide) rfl

/-- C5 is false on the code: the whole body of `get_emails_to_notify`
sits in a single `try`/`except` that logs and re-raises, so a
header-decode failure on the first message aborts the stage.  Here the
mailbox holds two unseen watchlisted messages; the first has an
undecodable Subject, and the stage returns the error — the second
message is not processed and no NotificationSummary exists. -/
theorem C5_decode_failure_aborts_stage :
    (get_emails_to_notify [msgBadSubject, msgAfterBad] (JsonFile.ok ["boss@x.com"])).2 =
      Except.error PyError.decodeError ∧
    ∀ result : List Message × List (String × String),
      (get_emails_to_notify [msgBadSubject, msgAfterBad] (JsonFile.ok ["boss@x.com"])).2 ≠
        Except.ok result := by
  constructor
  · rfl
  · intro result hres
    rw [(by rfl :
      (get_emails_to_notify [msgBadSubject, msgAfterBad] (JsonFile.ok ["boss@x.com"])).2 =
        Except.error PyError.decodeError)] at hres
    exact Except.noConfusion hres

/-- C5 amended: a header-decode failure on an unseen watchlisted
message aborts the whole Notification Stage — the stage logs the
failure (its last trace event is the error log) and re-raises, so no
remaining message is processed and no NotificationSummary is
produced. -/
theorem C5_amended_decode_failure_aborts (mb : List Message) (wl : List String)
    (m : Message) (e : PyError)
    (hN : (mb.map Message.msgId).Nodup)
    (hm : m ∈ mb) (hseen : m.seen = false) (hwl : m.fromAddr ∈ wl)
    (hdec : decodeSubject m.subject = Except.error e) :
    ∃ e', (get_emails_to_notify mb (JsonFile.ok wl)).2 = Except.error e' ∧
      ((get_emails_to_notify mb (JsonFile.ok wl)).1).getLast? =
        some (Event.errorLog "Failed to notify emails") := by
  cases hres : (notifySenders mb wl).2 with
  | ok x =>
    exfalso
    obtain ⟨mbS, rowsS⟩ := x
    have heq : notifySenders mb wl = ((notifySenders mb wl).1, Except.ok (mbS, rowsS)) := by
      rw [← hres]
    obtain ⟨G, -, -, -, -, -, hdecall⟩ := notifySenders_ok hN heq
    obtain ⟨s', hs'⟩ := hdecall m hm hseen hwl
    rw [hdec] at hs'
    exact Except.noConfusion hs'
  | error e' =>
    refine ⟨e', ?_, ?_⟩
    · simp only [get_emails_to_notify, loadEmails, hres]
    · simp only [get_emails_to_notify, loadEmails, hres]
      rw [List.getLast?_concat]

/-- Closed instance of the amended C5 theorem on the two-message
mailbox of the counterexample. -/
theorem C5_amended_decode_failure_aborts_witness :
    ∃ e', (get_emails_to_notify [msgBadSubject, msgAfterBad]
        (JsonFile.ok ["boss@x.com"])).2 = Except.error e' ∧
      ((get_emails_to_notify [msgBadSubject, msgAfterBad]
        (JsonFile.ok ["boss@x.com"])).1).getLast? =
        some (Event.errorLog "Failed to notify emails") :=
  C5_amended_decode_failure_aborts [msgBadSubject, msgAfterBad] ["boss@x.com"]
    msgBadSubject PyError.decodeError (by decide) (by decide) rfl (by decide) rfl

/-! ### Attachment Stage (C7, C8) -/

theorem specPartName_eq {msgId : String} {p : MimePart} {n : String}
    (h : partFilename msgId p = Except.ok n) : specPartName msgId p = n := by
  unfold specPartName
  rw [h]

theorem attachParts_ok {sender msgId dir : String} {parts : List MimePart}
    {tr : List Event} {recs : List (String × String)}
    (h : attachParts sender msgId dir parts = (tr, Except.ok recs)) :
    recs = (parts.filter (fun p => isAttachPart p && p.writeOk)).map
        (fun p => (sender, mkSavedName msgId (specPartName msgId p))) ∧
    ∀ p ∈ parts, isAttachPart p = true → ∃ n, partFilename msgId p = Except.ok n := by
  induction parts generalizing tr recs with
  | nil =>
    simp only [attachParts, Prod.mk.injEq, Except.ok.injEq] at h
    obtain ⟨-, h2⟩ := h
    subst h2
    refine ⟨by simp, ?_⟩
    intro p hp
    cases hp
  | cons p rest ih =>
    by_cases hmp : p.isMultipart
    · simp only [attachParts, hmp, if_true] at h
      obtain ⟨h1, h2⟩ := ih h
      have hap : isAttachPart p = false := by
        simp [isAttachPart, hmp]
      refine ⟨?_, ?_⟩
      · rw [List.filter_cons_of_neg (by simp [hap])]
        exact h1
      · intro q hq hq'
        rcases List.mem_cons.mp hq with rfl | hqr
        · rw [hap] at hq'
          cases hq'
        · exact h2 q hqr hq'
    · by_cases hc : isAttachCandidate p
      · cases hpf : partFilename msgId p with
        | error e =>
          simp only [attachParts, hmp, hc, hpf, if_false, if_true, Bool.false_eq_true,
            Prod.mk.injEq] at h
          exact absurd h.2 (by simp)
        | ok n =>
          have hap : isAttachPart p = true := by
            simp [isAttachPart, hmp, hc]
          by_cases hw : p.writeOk
          · simp only [attachParts, hmp, hc, hpf, if_false, if_true, hw,
              Bool.false_eq_true, Prod.mk.injEq] at h
            obtain ⟨-, hres⟩ := h
            obtain ⟨recs₁, hr2, hre⟩ := except_map_eq_ok hres
            have heq : attachParts sender msgId dir rest =
                ((attachParts sender msgId dir rest).1, Except.ok recs₁) := by
              rw [← hr2]
            obtain ⟨h1, h2⟩ := ih heq
            refine ⟨?_, ?_⟩
            · rw [List.filter_cons_of_pos (by simp [hap, hw]), List.map_cons, ← h1,
                specPartName_eq hpf, hre]
            · intro q hq hq'
              rcases List.mem_cons.mp hq with rfl | hqr
              · exact ⟨n, hpf⟩
              · exact h2 q hqr hq'
          · simp only [attachParts, hmp, hc, hpf, if_false, if_true, hw,
              Bool.false_eq_true, Prod.mk.injEq] at h
            have heq : attachParts sender msgId dir rest =
                ((attachParts sender msgId dir rest).1, Except.ok recs) := by
              rw [← h.2]
            obtain ⟨h1, h2⟩ := ih heq
            refine ⟨?_, ?_⟩
            · rw [List.filter_cons_of_neg (by simp [hw]), h1]
            · intro q hq hq'
              rcases List.mem_cons.mp hq with rfl | hqr
              · exact ⟨n, hpf⟩
              · exact h2 q hqr hq'
      · have hap : isAttachPart p = false := by
          simp [isAttachPart, hc]
        simp only [attachParts, hmp, hc, if_false, Bool.false_eq_true] at h
        obtain ⟨h1, h2⟩ := ih h
        refine ⟨?_, ?_⟩
        · rw [List.filter_cons_of_neg (by simp [hap])]
          exact h1
        · intro q hq hq'
          rcases List.mem_cons.mp hq with rfl | hqr
          · rw [hap] at hq'
            cases hq'
          · exact h2 q hqr hq'

theorem attachMsgs_ok {sender dir : String} {mb : List Message} {ms : List Message}
    {tr : List Event} {recs : List (String × String)}
    (hsub : ∀ m ∈ ms, fetchMsg mb m.msgId = some m)
    (h : attachMsgs sender dir mb (ms.map (fun m => m.msgId)) = (tr, Except.ok recs)) :
    recs = ms.flatMap (fun m => (m.parts.filter (fun p => isAttachPart p && p.writeOk)).map
        (fun p => (sender, mkSavedName m.msgId (specPartName m.msgId p)))) ∧
    ∀ m ∈ ms, (∃ x, decodeSubject m.subject = Except.ok x) ∧
      ∀ p ∈ m.parts, isAttachPart p = true → ∃ n, partFilename m.msgId p = Except.ok n := by
  induction ms generalizing tr recs with
  | nil =>
    simp only [List.map_nil, attachMsgs, Prod.mk.injEq, Except.ok.injEq] at h
    obtain ⟨-, h2⟩ := h
    subst h2
    refine ⟨by simp, ?_⟩
    intro m hm
    cases hm
  | cons m ms' ih =>
    have hf : fetchMsg mb m.msgId = some m := hsub m (List.mem_cons_self m ms')
    cases hd : decodeSubject m.subject with
    | error e =>
      simp only [List.map_cons, attachMsgs, hf, hd, Prod.mk.injEq] at h
      exact absurd h.2 (by simp)
    | ok x =>
      cases hrp : (attachParts sender m.msgId dir m.parts).2 with
      | error e =>
        simp only [List.map_cons, attachMsgs, hf, hd, hrp, Prod.mk.injEq] at h
        exact absurd h.2 (by simp)
      | ok recs₁ =>
        simp only [List.map_cons, attachMsgs, hf, hd, hrp, Prod.mk.injEq] at h
        obtain ⟨-, hres⟩ := h
        obtain ⟨recs₂, hr2, hre⟩ := except_map_eq_ok hres
        have heqp : attachParts sender m.msgId dir m.parts =
            ((attachParts sender m.msgId dir m.parts).1, Except.ok recs₁) := by
          rw [← hrp]
        obtain ⟨hp1, hp2⟩ := attachParts_ok heqp
        have heqm : attachMsgs sender dir mb (ms'.map (fun m => m.msgId)) =
            ((attachMsgs sender dir mb (ms'.map (fun m => m.msgId))).1, Except.ok recs₂) := by
          rw [← hr2]
        obtain ⟨hm1, hm2⟩ := ih (fun m' hm' => hsub m' (List.mem_cons_of_mem m hm')) heqm
        refine ⟨?_, ?_⟩
        · rw [hre, List.flatMap_cons, ← hp1, ← hm1]
        · intro m' hm'
          rcases List.mem_cons.mp hm' with rfl | hmr
          · exact ⟨⟨x, hd⟩, hp2⟩
          · exact hm2 m' hmr

theorem attachSenders_ok {dir : String} {mb : List Message} {senders : List String}
    {tr : List Event} {recs : List (String × String)}
    (hN : (mb.map Message.msgId).Nodup)
    (h : attachSenders dir mb senders = (tr, Except.ok recs)) :
    recs = attachSpec mb senders ∧
    ∀ s ∈ senders, ∀ m ∈ mb, (m.fromAddr == s) = true →
      (∃ x, decodeSubject m.subject = Except.ok x) ∧
      ∀ p ∈ m.parts, isAttachPart p = true → ∃ n, partFilename m.msgId p = Except.ok n := by
  induction senders generalizing tr recs with
  | nil =>
    simp only [attachSenders, Prod.mk.injEq, Except.ok.injEq] at h
    obtain ⟨-, h2⟩ := h
    subst h2
    refine ⟨by simp [attachSpec], ?_⟩
    intro s hs
    cases hs
  | cons s rest ih =>
    by_cases hids : (searchIds mb (fun m => m.fromAddr == s)).isEmpty
    · have hfil : mb.filter (fun m => m.fromAddr == s) = [] := by
        have := List.isEmpty_iff.mp hids
        unfold searchIds at this
        exact List.map_eq_nil_iff.mp this
      simp only [attachSenders, hids, if_true] at h
      have h2c : (attachSenders dir mb rest).2 = Except.ok recs := by
        have := congrArg Prod.snd h
        simpa using this
      have heq : attachSenders dir mb rest =
          ((attachSenders dir mb rest).1, Except.ok recs) := by
        rw [← h2c]
      obtain ⟨h1, h2⟩ := ih heq
      refine ⟨?_, ?_⟩
      · rw [h1]
        simp only [attachSpec, List.flatMap_cons, hfil, List.flatMap_nil, List.nil_append]
      · intro s' hs' m hm hfm
        rcases List.mem_cons.mp hs' with rfl | hsr
        · exfalso
          have : m ∈ mb.filter (fun m => m.fromAddr == s') :=
            List.mem_filter.mpr ⟨hm, hfm⟩
          rw [hfil] at this
          cases this
        · exact h2 s' hsr m hm hfm
    · cases hres : (attachMsgs s dir mb (searchIds mb fun m => m.fromAddr == s)).2 with
      | error e =>
        simp only [attachSenders, hids, if_false, Bool.false_eq_true, hres,
          Prod.mk.injEq] at h
        exact absurd h.2 (by simp)
      | ok recs₁ =>
        simp only [attachSenders, hids, if_false, Bool.false_eq_true, hres,
          Prod.mk.injEq] at h
        obtain ⟨-, hresf⟩ := h
        obtain ⟨recs₂, hr2, hre⟩ := except_map_eq_ok hresf
        have heqm : attachMsgs s dir mb (searchIds mb fun m => m.fromAddr == s) =
            ((attachMsgs s dir mb (searchIds mb fun m => m.fromAddr == s)).1,
              Except.ok recs₁) := by
          rw [← hres]
        have hsub : ∀ m ∈ mb.filter (fun m => m.fromAddr == s),
            fetchMsg mb m.msgId = some m := by
          intro m hm
          exact fetchMsg_nodup hN (List.mem_filter.mp hm).1
        obtain ⟨hm1, hm2⟩ := @attachMsgs_ok s dir mb (mb.filter (fun m => m.fromAddr == s))
          ((attachMsgs s dir mb (searchIds mb fun m => m.fromAddr == s)).1) recs₁ hsub heqm
        have heqr : attachSenders dir mb rest =
            ((attachSenders dir mb rest).1, Except.ok recs₂) := by
          rw [← hr2]
        obtain ⟨hr1, hrdec⟩ := ih heqr
        refine ⟨?_, ?_⟩
        · rw [hre, hm1, hr1]
          simp only [attachSpec, List.flatMap_cons]
        · intro s' hs' m hm hfm
          rcases List.mem_cons.mp hs' with rfl | hsr
          · exact hm2 m (List.mem_filter.mpr ⟨hm, hfm⟩)
          · exact hrdec s' hsr m hm hfm

/-- C8: the Attachment Stage returns exactly one record per successfully
saved attachment — a failed write is caught (logged) and contributes no
record, and the remaining parts, messages and senders are still
processed.  This is the refinement statement: for every write-oracle
assignment, including ones with failures, the returned records coincide
with the spec-side description `attachSpec`. -/
theorem C8_attachment_records_one_per_saved (mb : List Message) (senders : List String)
    (dir : String) (tr : List Event) (recs : List (String × String))
    (hN : (mb.map Message.msgId).Nodup)
    (h : get_attachments mb (JsonFile.ok senders) dir = (tr, Except.ok recs)) :
    recs = attachSpec mb senders := by
  cases hres : (attachSenders dir mb senders).2 with
  | error e =>
    simp only [get_attachments, loadEmails, hres, Prod.mk.injEq] at h
    exact absurd h.2 (by simp)
  | ok recs₁ =>
    simp only [get_attachments, loadEmails, hres, Prod.mk.injEq, Except.ok.injEq] at h
    obtain ⟨-, h2⟩ := h
    subst h2
    have heq : attachSenders dir mb senders =
        ((attachSenders dir mb senders).1, Except.ok recs₁) := by
      rw [← hres]
    exact (attachSenders_ok hN heq).1

/-- Closed instance of the C8 theorem: one failing and one succeeding
write in the same message; exactly the successful one is recorded. -/
theorem C8_attachment_records_one_per_saved_witness :
    ([("docs@x.com", "9_invoice.pdf")] : List (String × String)) =
      attachSpec [msgMixedWrites] ["docs@x.com"] :=
  C8_attachment_records_one_per_saved [msgMixedWrites] ["docs@x.com"] "./attachments"
    [Event.makedirs "./attachments", Event.search "FROM \"docs@x.com\"", Event.fetch "9",
      Event.warnLog "Failed to save attachment bad.pdf",
      Event.fileWrite "./attachments/9_invoice.pdf"]
    [("docs@x.com", "9_invoice.pdf")] (by decide) rfl

/-- C7 is false on the code as a whole-run uniqueness statement: two
parts of the *same* message carrying the same original filename are both
saved as `<msgId>_<filename>` — here twice `7_invoice.pdf` — so the
saved names of the run are not unique (the second write overwrites the
first). -/
theorem C7_saved_names_not_unique_within_message :
    (get_attachments [msgTwoInvoices] (JsonFile.ok ["docs@x.com"]) "./attachments").2 =
      Except.ok [("docs@x.com", "7_invoice.pdf"), ("docs@x.com", "7_invoice.pdf")] ∧
    ¬ ([("docs@x.com", "7_invoice.pdf"), ("docs@x.com", "7_invoice.pdf")].map
        Prod.snd).Nodup := by
  exact ⟨rfl, by decide⟩

theorem underscore_prefix_inj (a : List Char) : ∀ (b c d : List Char),
    '_' ∉ a → '_' ∉ c → a ++ '_' :: b = c ++ '_' :: d → a = c := by
  induction a with
  | nil =>
    intro b c d _ hc h
    cases c with
    | nil => rfl
    | cons x c' =>
      exfalso
      simp only [List.nil_append, List.cons_append] at h
      injection h with h1 h2
      exact hc (by rw [← h1]; exact List.mem_cons_self '_' c')
  | cons x a' ih =>
    intro b c d ha hc h
    cases c with
    | nil =>
      exfalso
      simp only [List.cons_append, List.nil_append] at h
      injection h with h1 h2
      exact ha (by rw [h1]; exact List.mem_cons_self '_' a')
    | cons y c' =>
      simp only [List.cons_append] at h
      injection h with h1 h2
      have ha' : '_' ∉ a' := fun hmem => ha (List.mem_cons_of_mem x hmem)
      have hc' : '_' ∉ c' := fun hmem => hc (List.mem_cons_of_mem y hmem)
      rw [h1, ih b c' d ha' hc' h2]

theorem mkSavedName_data (i n : String) :
    (mkSavedName i n).data = i.data ++ '_' :: n.data := by
  unfold mkSavedName
  rw [String.data_append, String.data_append, List.append_assoc]
  rfl

theorem mkSavedName_inj {i₁ n₁ i₂ n₂ : String}
    (h1 : '_' ∉ i₁.data) (h2 : '_' ∉ i₂.data) (hne : i₁ ≠ i₂) :
    mkSavedName i₁ n₁ ≠ mkSavedName i₂ n₂ := by
  intro h
  apply hne
  apply String.ext
  have hd : (mkSavedName i₁ n₁).data = (mkSavedName i₂ n₂).data := by rw [h]
  rw [mkSavedName_data, mkSavedName_data] at hd
  exact underscore_prefix_inj i₁.data n₁.data i₂.data n₂.data h1 h2 hd

/-- C7 amended: every record's saved name is
`mkSavedName msgId n` where `n` is the decoded original filename, or the
synthesized `attachment_<msgId>` when the part has none (so the saved
string is then `<msgId>_attachment_<msgId>`); names built from two
different underscore-free message identifiers are always distinct, but —
as the counterexample shows — two parts of the *same* message with equal
(or equally absent) original filenames receive the same saved name, so
uniqueness holds only across messages, not across the whole run. -/
theorem C7_amended_name_format_and_cross_message_uniqueness
    (mb : List Message) (senders : List String) (dir : String)
    (tr : List Event) (recs : List (String × String))
    (hN : (mb.map Message.msgId).Nodup)
    (h : get_attachments mb (JsonFile.ok senders) dir = (tr, Except.ok recs)) :
    (∀ r ∈ recs, ∃ m ∈ mb, ∃ p ∈ m.parts, isAttachPart p = true ∧ p.writeOk = true ∧
       ∃ n, partFilename m.msgId p = Except.ok n ∧ r.2 = mkSavedName m.msgId n) ∧
    (∀ i₁ n₁ i₂ n₂ : String, '_' ∉ i₁.data → '_' ∉ i₂.data → i₁ ≠ i₂ →
       mkSavedName i₁ n₁ ≠ mkSavedName i₂ n₂) := by
  cases hres : (attachSenders dir mb senders).2 with
  | error e =>
    simp only [get_attachments, loadEmails, hres, Prod.mk.injEq] at h
    exact absurd h.2 (by simp)
  | ok recs₁ =>
    simp only [get_attachments, loadEmails, hres, Prod.mk.injEq, Except.ok.injEq] at h
    obtain ⟨-, h2⟩ := h
    subst h2
    have heq : attachSenders dir mb senders =
        ((attachSenders dir mb senders).1, Except.ok recs₁) := by
      rw [← hres]
    obtain ⟨hspec, hdec⟩ := attachSenders_ok hN heq
    refine ⟨?_, fun i₁ n₁ i₂ n₂ h1 h2 hne => mkSavedName_inj h1 h2 hne⟩
    intro r hr
    rw [hspec] at hr
    unfold attachSpec at hr
    obtain ⟨s, hs, hr⟩ := List.mem_flatMap.mp hr
    obtain ⟨m, hmfil, hr⟩ := List.mem_flatMap.mp hr
    obtain ⟨p, hpfil, hrp⟩ := List.mem_map.mp hr
    have hm : m ∈ mb := (List.mem_filter.mp hmfil).1
    have hfs : (m.fromAddr == s) = true := (List.mem_filter.mp hmfil).2
    have hp : p ∈ m.parts := (List.mem_filter.mp hpfil).1
    have hpw := (List.mem_filter.mp hpfil).2
    simp only [Bool.and_eq_true] at hpw
    obtain ⟨n, hpf⟩ := (hdec s hs m hm hfs).2 p hp hpw.1
    refine ⟨m, hm, p, hp, hpw.1, hpw.2, n, hpf, ?_⟩
    rw [← hrp]
    simp [specPartName_eq hpf]

/-- Closed instance of the amended C7 theorem on the duplicate-name
counterexample mailbox. -/
theorem C7_amended_name_format_and_cross_message_uniqueness_witness :
    (∀ r ∈ [("docs@x.com", "7_invoice.pdf"), ("docs@x.com", "7_invoice.pdf")],
       ∃ m ∈ [msgTwoInvoices], ∃ p ∈ m.parts, isAttachPart p = true ∧ p.writeOk = true ∧
       ∃ n, partFilename m.msgId p = Except.ok n ∧ r.2 = mkSavedName m.msgId n) ∧
    (∀ i₁ n₁ i₂ n₂ : String, '_' ∉ i₁.data → '_' ∉ i₂.data → i₁ ≠ i₂ →
       mkSavedName i₁ n₁ ≠ mkSavedName i₂ n₂) :=
  C7_amended_name_format_and_cross_message_uniqueness [msgTwoInvoices] ["docs@x.com"]
    "./attachments"
    [Event.makedirs "./attachments", Event.search "FROM \"docs@x.com\"", Event.fetch "7",
      Event.fileWrite "./attachments/7_invoice.pdf",
      Event.fileWrite "./attachments/7_invoice.pdf"]
    [("docs@x.com", "7_invoice.pdf"), ("docs@x.com", "7_invoice.pdf")] (by decide) rfl

/-! ### Notifier and `main` (C6, C9) -/

theorem send_to_telegram_ok (t c m : String) (o : HttpOutcome) :
    (send_to_telegram t c m o).2 = Except.ok () := by
  cases o with
  | networkFailure => rfl
  | response code =>
    by_cases hcode : 400 ≤ code
    · simp [send_to_telegram, hcode]
    · simp [send_to_telegram, hcode]

theorem sendMessage_mem_send (t c m : String) (o : HttpOutcome) :
    Event.sendMessage c m ∈ (send_to_telegram t c m o).1 := by
  cases o with
  | networkFailure => exact List.mem_cons_self _ _
  | response code =>
    by_cases hcode : 400 ≤ code
    · simp [send_to_telegram, hcode]
    · simp [send_to_telegram, hcode]

theorem sendText_send (t c m : String) (o : HttpOutcome) :
    (send_to_telegram t c m o).1.filterMap sendText = [m] := by
  cases o with
  | networkFailure => rfl
  | response code =>
    by_cases hcode : 400 ≤ code
    · simp [send_to_telegram, hcode, sendText]
    · simp [send_to_telegram, hcode, sendText]

theorem sendText_load (cf : CredFile) :
    (load_credentials cf).1.filterMap sendText = [] := by
  cases cf with
  | missing => rfl
  | malformed => rfl
  | parsed entries =>
    cases h1 : lookupKey entries "user" with
    | error e => simp [load_credentials, h1, sendText]
    | ok u =>
      cases h2 : lookupKey entries "password" with
      | error e => simp [load_credentials, h1, h2, sendText]
      | ok p =>
        cases h3 : lookupKey entries "telegram_token" with
        | error e => simp [load_credentials, h1, h2, h3, sendText]
        | ok t =>
          cases h4 : lookupKey entries "telegram_chat_id" with
          | error e => simp [load_credentials, h1, h2, h3, h4, sendText]
          | ok c => simp [load_credentials, h1, h2, h3, h4]

theorem sendText_deleteLoop (senders : List String) (mb : List Message) :
    (deleteLoop mb senders).1.filterMap sendText = [] := by
  induction senders generalizing mb with
  | nil => rfl
  | cons s rest ih =>
    simp [deleteLoop, List.filterMap_cons, List.filterMap_append, List.filterMap_map,
      Function.comp, sendText, ih]

theorem sendText_delete (mb : List Message) (jf : JsonFile) :
    (get_emails_to_delete mb jf).1.filterMap sendText = [] := by
  cases jf with
  | missing => rfl
  | malformed => rfl
  | noEmailsKey => rfl
  | ok senders =>
    simp [get_emails_to_delete, loadEmails, List.filterMap_append, sendText_deleteLoop,
      sendText]

theorem sendText_notifyMsgs (ids : List String) (mb : List Message) :
    (notifyMsgs mb ids).1.filterMap sendText = [] := by
  induction ids generalizing mb with
  | nil => rfl
  | cons i rest ih =>
    cases hf : fetchMsg mb i with
    | none => simp [notifyMsgs, hf, sendText]
    | some m =>
      cases hd : decodeSubject m.subject with
      | error e => simp [notifyMsgs, hf, hd, sendText]
      | ok subj => simp [notifyMsgs, hf, hd, sendText, ih]

theorem sendText_notifySenders (wl : List String) (mb : List Message) :
    (notifySenders mb wl).1.filterMap sendText = [] := by
  induction wl generalizing mb with
  | nil => rfl
  | cons s rest ih =>
    cases hr : (notifyMsgs mb (searchIds mb fun m => m.fromAddr == s && !m.seen)).2 with
    | error e =>
      simp [notifySenders, hr, sendText, sendText_notifyMsgs]
    | ok x =>
      simp [notifySenders, hr, sendText, List.filterMap_append, sendText_notifyMsgs, ih]

theorem sendText_notify (mb : List Message) (jf : JsonFile) :
    (get_emails_to_notify mb jf).1.filterMap sendText = [] := by
  cases jf with
  | missing => rfl
  | malformed => rfl
  | noEmailsKey => rfl
  | ok senders =>
    cases hr : (notifySenders mb senders).2 with
    | error e =>
      simp [get_emails_to_notify, loadEmails, hr, List.filterMap_append,
        sendText_notifySenders, sendText]
    | ok x =>
      simp [get_emails_to_notify, loadEmails, hr, sendText_notifySenders]

theorem sendText_attachParts (parts : List MimePart) (sender msgId dir : String) :
    (attachParts sender msgId dir parts).1.filterMap sendText = [] := by
  induction parts with
  | nil => rfl
  | cons p rest ih =>
    by_cases hmp : p.isMultipart
    · simp [attachParts, hmp, ih]
    · by_cases hc : isAttachCandidate p
      · cases hpf : partFilename msgId p with
        | error e => simp [attachParts, hmp, hc, hpf]
        | ok n =>
          by_cases hw : p.writeOk
          · simp [attachParts, hmp, hc, hpf, hw, sendText, ih]
          · simp [attachParts, hmp, hc, hpf, hw, sendText, ih]
      · simp [attachParts, hmp, hc, ih]

theorem sendText_attachMsgs (ids : List String) (sender dir : String) (mb : List Message) :
    (attachMsgs sender dir mb ids).1.filterMap sendText = [] := by
  induction ids with
  | nil => rfl
  | cons i rest ih =>
    cases hf : fetchMsg mb i with
    | none => simp [attachMsgs, hf, sendText, ih]
    | some m =>
      cases hd : decodeSubject m.subject with
      | error e => simp [attachMsgs, hf, hd, sendText]
      | ok x =>
        cases hrp : (attachParts sender m.msgId dir m.parts).2 with
        | error e =>
          simp [attachMsgs, hf, hd, hrp, sendText, sendText_attachParts]
        | ok recs₁ =>
          simp [attachMsgs, hf, hd, hrp, sendText, List.filterMap_append,
            sendText_attachParts, ih]

theorem sendText_attachSenders (senders : List String) (dir : String) (mb : List Message) :
    (attachSenders dir mb senders).1.filterMap sendText = [] := by
  induction senders with
  | nil => rfl
  | cons s rest ih =>
    by_cases hids : (searchIds mb (fun m => m.fromAddr == s)).isEmpty
    · simp [attachSenders, hids, sendText, ih]
    · cases hr : (attachMsgs s dir mb (searchIds mb fun m => m.fromAddr == s)).2 with
      | error e => simp [attachSenders, hids, hr, sendText, sendText_attachMsgs]
      | ok recs₁ =>
        simp [attachSenders, hids, hr, sendText, List.filterMap_append,
          sendText_attachMsgs, ih]

theorem sendText_attachments (mb : List Message) (jf : JsonFile) (dir : String) :
    (get_attachments mb jf dir).1.filterMap sendText = [] := by
  cases jf with
  | missing => rfl
  | malformed => rfl
  | noEmailsKey => rfl
  | ok senders =>
    cases hr : (attachSenders dir mb senders).2 with
    | error e =>
      simp [get_attachments, loadEmails, hr, List.filterMap_append, List.filterMap_cons,
        sendText_attachSenders, sendText]
    | ok recs =>
      simp [get_attachments, loadEmails, hr, List.filterMap_cons, sendText_attachSenders,
        sendText]

theorem sendText_tail (r : Except PyError (List (String × String))) :
    (match r with
     | Except.error _ => ([] : List Event)
     | Except.ok recs => (if recs.isEmpty then [] else [Event.printAttach recs]) ++
         [Event.logout]).filterMap sendText = [] := by
  cases r with
  | error e => rfl
  | ok recs =>
    by_cases hre : recs.isEmpty
    · simp [hre, sendText]
    · simp [hre, sendText]

theorem mainRun_unfold_after_notify (env : Env) (tr0 : List Event) (creds : Credentials)
    (trD : List Event) (mb1 : List Message) (rowsD : List (String × Nat))
    (trN : List Event) (mb2 : List Message) (rows : List (String × String))
    (h0 : load_credentials env.credFile = (tr0, Except.ok creds))
    (h1 : env.connectOk = true)
    (h2 : get_emails_to_delete env.mailbox env.deleteList = (trD, Except.ok (mb1, rowsD)))
    (h3 : get_emails_to_notify mb1 env.notifyList = (trN, Except.ok (mb2, rows))) :
    (mainRun env).1 =
      tr0 ++ [Event.connect creds.user] ++ trD ++ [Event.printDelete rowsD] ++ trN ++
        (send_to_telegram creds.telegram_token creds.telegram_chat_id
          (if rows.isEmpty then "No new emails matching the criteria."
           else "New email(s):\n" ++ toStringRender rows) env.httpOutcome).1 ++
        [Event.printNotify rows] ++
        (get_attachments mb2 env.attachList "./attachments").1 ++
        (match (get_attachments mb2 env.attachList "./attachments").2 with
         | Except.error _ => []
         | Except.ok recs =>
            (if recs.isEmpty then [] else [Event.printAttach recs]) ++ [Event.logout]) := by
  have hconn : connect_to_gmail_imap creds.user creds.password env.connectOk env.mailbox =
      ([Event.connect creds.user], Except.ok env.mailbox) := by
    rw [h1]
    rfl
  cases hA : (get_attachments mb2 env.attachList "./attachments").2 with
  | error e =>
    simp only [mainRun, h0, hconn, h2, h3, hA]
    simp [List.append_assoc]
  | ok recs =>
    simp only [mainRun, h0, hconn, h2, h3, hA]
    simp [List.append_assoc]

/-- C9: the message handed to the Notifier is exactly
"No new emails matching the criteria." when the NotificationSummary is
empty, and otherwise is "New email(s):" followed by the rendered summary
rows; the whole run posts exactly one Telegram message. -/
theorem C9_notifier_message_content (env : Env) (tr0 : List Event) (creds : Credentials)
    (trD : List Event) (mb1 : List Message) (rowsD : List (String × Nat))
    (trN : List Event) (mb2 : List Message) (rows : List (String × String))
    (h0 : load_credentials env.credFile = (tr0, Except.ok creds))
    (h1 : env.connectOk = true)
    (h2 : get_emails_to_delete env.mailbox env.deleteList = (trD, Except.ok (mb1, rowsD)))
    (h3 : get_emails_to_notify mb1 env.notifyList = (trN, Except.ok (mb2, rows))) :
    (mainRun env).1.filterMap sendText =
      [if rows.isEmpty then "No new emails matching the criteria."
       else "New email(s):\n" ++ toStringRender rows] ∧
    (rows ≠ [] →
      (if rows.isEmpty then "No new emails matching the criteria."
       else "New email(s):\n" ++ toStringRender rows) =
      "New email(s):" ++ ("\n" ++ toStringRender rows)) := by
  have hmain := mainRun_unfold_after_notify env tr0 creds trD mb1 rowsD trN mb2 rows
    h0 h1 h2 h3
  constructor
  · rw [hmain]
    have htr0 : tr0 = (load_credentials env.credFile).1 := by rw [h0]
    have htrD : trD = (get_emails_to_delete env.mailbox env.deleteList).1 := by rw [h2]
    have htrN : trN = (get_emails_to_notify mb1 env.notifyList).1 := by rw [h3]
    rw [htr0, htrD, htrN]
    simp only [List.filterMap_append, sendText_load, sendText_delete, sendText_notify,
      sendText_send, sendText_attachments, sendText_tail]
    simp [sendText]
  · intro hne
    rw [if_neg (by simpa [List.isEmpty_iff] using hne)]
    have hlit : ("New email(s):\n" : String) = "New email(s):" ++ "\n" := by decide
    rw [hlit, String.append_assoc]

/-- Closed instance of the C9 theorem on the all-empty run. -/
theorem C9_notifier_message_content_witness :
    (mainRun envAllEmpty).1.filterMap sendText =
      [if ([] : List (String × String)).isEmpty then "No new emails matching the criteria."
       else "New email(s):\n" ++ toStringRender []] ∧
    (([] : List (String × String)) ≠ [] →
      (if ([] : List (String × String)).isEmpty then "No new emails matching the criteria."
       else "New email(s):\n" ++ toStringRender []) =
      "New email(s):" ++ ("\n" ++ toStringRender [])) :=
  C9_notifier_message_content envAllEmpty [] (Credentials.mk "u" "p" "t" "c")
    [Event.expunge] [] [] [] [] [] rfl rfl rfl rfl

/-- C6: the Notifier never raises — any network failure or non-success
HTTP status is caught and logged, the function returns normally — and
the Attachment Stage still executes afterwards: the trace of
`get_attachments` appears in `main`'s trace after the Telegram post,
whatever the HTTP outcome was. -/
theorem C6_notifier_failure_nonfatal (env : Env) (tr0 : List Event) (creds : Credentials)
    (trD : List Event) (mb1 : List Message) (rowsD : List (String × Nat))
    (trN : List Event) (mb2 : List Message) (rows : List (String × String))
    (h0 : load_credentials env.credFile = (tr0, Except.ok creds))
    (h1 : env.connectOk = true)
    (h2 : get_emails_to_delete env.mailbox env.deleteList = (trD, Except.ok (mb1, rowsD)))
    (h3 : get_emails_to_notify mb1 env.notifyList = (trN, Except.ok (mb2, rows))) :
    (∀ t c m o, (send_to_telegram t c m o).2 = Except.ok ()) ∧
    (∃ a b, (mainRun env).1 =
       a ++ (get_attachments mb2 env.attachList "./attachments").1 ++ b ∧
       ∃ msg, Event.sendMessage creds.telegram_chat_id msg ∈ a) := by
  have hmain := mainRun_unfold_after_notify env tr0 creds trD mb1 rowsD trN mb2 rows
    h0 h1 h2 h3
  refine ⟨send_to_telegram_ok, ?_⟩
  refine ⟨tr0 ++ [Event.connect creds.user] ++ trD ++ [Event.printDelete rowsD] ++ trN ++
      (send_to_telegram creds.telegram_token creds.telegram_chat_id
        (if rows.isEmpty then "No new emails matching the criteria."
         else "New email(s):\n" ++ toStringRender rows) env.httpOutcome).1 ++
      [Event.printNotify rows],
    (match (get_attachments mb2 env.attachList "./attachments").2 with
     | Except.error _ => []
     | Except.ok recs =>
        (if recs.isEmpty then [] else [Event.printAttach recs]) ++ [Event.logout]),
    ?_, ?_⟩
  · rw [hmain]
  · refine ⟨if rows.isEmpty then "No new emails matching the criteria."
      else "New email(s):\n" ++ toStringRender rows, ?_⟩
    apply List.mem_append.mpr
    apply Or.inl
    apply List.mem_append.mpr
    apply Or.inr
    exact sendMessage_mem_send creds.telegram_token creds.telegram_chat_id _ env.httpOutcome

/-- Closed instance of the C6 theorem on the all-empty run with a
failing Telegram post. -/
theorem C6_notifier_failure_nonfatal_witness :
    (∀ t c m o, (send_to_telegram t c m o).2 = Except.ok ()) ∧
    (∃ a b, (mainRun { envAllEmpty with httpOutcome := HttpOutcome.networkFailure }).1 =
       a ++ (get_attachments [] (JsonFile.ok []) "./attachments").1 ++ b ∧
       ∃ msg, Event.sendMessage "c" msg ∈ a) :=
  C6_notifier_failure_nonfatal
    { envAllEmpty with httpOutcome := HttpOutcome.networkFailure }
    [] (Credentials.mk "u" "p" "t" "c") [Event.expunge] [] [] [] [] []
    rfl rfl rfl rfl

/-! ### Subject decoding uses only the first fragment (C10) -/

theorem decodeSubject_take1 (o : Option (List Fragment)) :
    decodeSubject (o.map (fun fs => fs.take 1)) = decodeSubject o := by
  cases o with
  | none => rfl
  | some frags =>
    cases frags with
    | nil => rfl
    | cons f r => rfl

theorem decodeSubject_firstFragOnly (m : Message) :
    decodeSubject (firstFragOnly m).subject = decodeSubject m.subject :=
  decodeSubject_take1 m.subject

theorem setSeenFn_firstFragOnly (i : String) (mm : Message) :
    setSeenFn i (firstFragOnly mm) = firstFragOnly (setSeenFn i mm) := by
  by_cases hid : (mm.msgId == i) = true
  · simp [setSeenFn, firstFragOnly, hid]
  · simp [setSeenFn, firstFragOnly, hid]

theorem setSeen_map_firstFragOnly (mb : List Message) (i : String) :
    setSeen (mb.map firstFragOnly) i = (setSeen mb i).map firstFragOnly := by
  unfold setSeen
  rw [List.map_map, List.map_map]
  congr 1
  funext mm
  exact setSeenFn_firstFragOnly i mm

theorem notifyMsgs_firstFrag (ids : List String) (mb : List Message) :
    notifyMsgs (mb.map firstFragOnly) ids =
      ((notifyMsgs mb ids).1,
        Except.map (fun x => (x.1.map firstFragOnly, x.2)) (notifyMsgs mb ids).2) := by
  induction ids generalizing mb with
  | nil => rfl
  | cons i rest ih =>
    have hfm := @fetchMsg_map firstFragOnly (fun m => rfl) mb i
    cases hf : fetchMsg mb i with
    | none =>
      rw [hf] at hfm
      simp [notifyMsgs, hfm, hf, Except.map]
    | some m =>
      rw [hf] at hfm
      simp only [Option.map_some'] at hfm
      cases hd : decodeSubject m.subject with
      | error e =>
        simp [notifyMsgs, hfm, hf, decodeSubject_firstFragOnly, decodeSubject_take1, hd,
          Except.map]
      | ok subj =>
        simp only [notifyMsgs, hfm, hf, decodeSubject_firstFragOnly, hd]
        rw [setSeen_map_firstFragOnly, ih (setSeen mb i)]
        cases hres : (notifyMsgs (setSeen mb i) rest).2 with
        | error e => simp [Except.map, hres]
        | ok x => simp [Except.map, hres, firstFragOnly]

theorem notifySenders_firstFrag (wl : List String) (mb : List Message) :
    notifySenders (mb.map firstFragOnly) wl =
      ((notifySenders mb wl).1,
        Except.map (fun x => (x.1.map firstFragOnly, x.2)) (notifySenders mb wl).2) := by
  induction wl generalizing mb with
  | nil => rfl
  | cons s rest ih =>
    have hsid : searchIds (mb.map firstFragOnly) (fun m => m.fromAddr == s && !m.seen) =
        searchIds mb (fun m => m.fromAddr == s && !m.seen) :=
      @searchIds_map firstFragOnly (fun m => m.fromAddr == s && !m.seen)
        (fun m => rfl) (fun m => rfl) mb
    simp only [notifySenders, hsid, notifyMsgs_firstFrag]
    cases hres : (notifyMsgs mb (searchIds mb fun m => m.fromAddr == s && !m.seen)).2 with
    | error e => simp [Except.map, hres]
    | ok x =>
      simp only [Except.map, hres]
      rw [ih x.1]
      cases hres' : (notifySenders x.1 rest).2 with
      | error e => simp [Except.map, hres']
      | ok y => simp [Except.map, hres']

theorem get_emails_to_notify_firstFrag (mb : List Message) (jf : JsonFile) :
    get_emails_to_notify (mb.map firstFragOnly) jf =
      ((get_emails_to_notify mb jf).1,
        Except.map (fun x => (x.1.map firstFragOnly, x.2))
          (get_emails_to_notify mb jf).2) := by
  cases jf with
  | missing => rfl
  | malformed => rfl
  | noEmailsKey => rfl
  | ok senders =>
    simp only [get_emails_to_notify, loadEmails, notifySenders_firstFrag]
    cases hres : (notifySenders mb senders).2 with
    | error e => simp [Except.map, hres]
    | ok x => simp [Except.map, hres]

theorem attachMsgs_firstFrag (ids : List String) (sender dir : String) (mb : List Message) :
    attachMsgs sender dir (mb.map firstFragOnly) ids = attachMsgs sender dir mb ids := by
  induction ids with
  | nil => rfl
  | cons i rest ih =>
    have hfm := @fetchMsg_map firstFragOnly (fun m => rfl) mb i
    cases hf : fetchMsg mb i with
    | none =>
      rw [hf] at hfm
      simp [attachMsgs, hfm, hf, ih]
    | some m =>
      rw [hf] at hfm
      simp only [Option.map_some'] at hfm
      cases hd : decodeSubject m.subject with
      | error e =>
        simp [attachMsgs, hfm, hf, decodeSubject_firstFragOnly, decodeSubject_take1, hd]
      | ok x =>
        cases hrp : (attachParts sender m.msgId dir m.parts).2 with
        | error e =>
          simp [attachMsgs, hfm, hf, decodeSubject_firstFragOnly, decodeSubject_take1, hd,
            firstFragOnly, hrp]
        | ok recs =>
          simp [attachMsgs, hfm, hf, decodeSubject_firstFragOnly, decodeSubject_take1, hd,
            firstFragOnly, hrp, ih]

theorem attachSenders_firstFrag (senders : List String) (dir : String) (mb : List Message) :
    attachSenders dir (mb.map firstFragOnly) senders = attachSenders dir mb senders := by
  induction senders with
  | nil => rfl
  | cons s rest ih =>
    have hsid : searchIds (mb.map firstFragOnly) (fun m => m.fromAddr == s) =
        searchIds mb (fun m => m.fromAddr == s) :=
      @searchIds_map firstFragOnly (fun m => m.fromAddr == s)
        (fun m => rfl) (fun m => rfl) mb
    simp only [attachSenders, hsid, attachMsgs_firstFrag, ih]

theorem get_attachments_firstFrag (mb : List Message) (jf : JsonFile) (dir : String) :
    get_attachments (mb.map firstFragOnly) jf dir = get_attachments mb jf dir := by
  cases jf with
  | missing => rfl
  | malformed => rfl
  | noEmailsKey => rfl
  | ok senders =>
    simp only [get_attachments, loadEmails, attachSenders_firstFrag]

/-- C10: both stages decode only `decode_header(...)[0]` — the first
fragment of the Subject header.  Concretely: `decodeSubject` of a
fragment list is `decodeFragment` of its head, independent of the tail;
and truncating every message's Subject to its first fragment changes
neither the Notification Stage's trace, rows or error, nor anything
about the Attachment Stage — the dropped fragments are never used. -/
theorem C10_only_first_subject_fragment_used (mb : List Message) (jfN jfA : JsonFile)
    (dir : String) :
    (∀ (f : Fragment) (rest : List Fragment),
      decodeSubject (some (f :: rest)) = decodeFragment f) ∧
    get_emails_to_notify (mb.map firstFragOnly) jfN =
      ((get_emails_to_notify mb jfN).1,
        Except.map (fun x => (x.1.map firstFragOnly, x.2))
          (get_emails_to_notify mb jfN).2) ∧
    get_attachments (mb.map firstFragOnly) jfA dir = get_attachments mb jfA dir :=
  ⟨fun _ _ => rfl, get_emails_to_notify_firstFrag mb jfN,
    get_attachments_firstFrag mb jfA dir⟩
